import Mathlib

/-!
# Authorization decisions of `pkg/node/dgraph/repo.go`

A shallow embedding of the grant-creation and decision code of
`DGraphRepo` (`Authorize`, `IsAuthorized`, `checkType`,
`isPermissionSufficient`) together with the three DQL queries that
`IsAuthorized` sends to the store, followed by theorems about them.

The store is an explicit value: a property graph whose predicates are the
ones the queries name (`type`, `access.to`, `access.to.namespace`, `owns`,
`children`, `contains`).  Go results `(bool, error)` are pairs
`Bool × Option Error`; a mutation returns the graph it leaves behind.
-/

namespace Dgraph

/-! ## Data model -/

/-- The errors the two operations return.  The first four are the
`errors.New` values of repo.go; `store` stands for an error handed back by
`txn.QueryWithVars` or `json.Unmarshal`. -/
inductive Error where
  | invalidAccount
  | resourceDoesNotExist
  | failedToMutate
  | invalidAction
  | store
  deriving DecidableEq, Repr

/-- An `access.to` edge with its two facets.  A facet that is absent in the
store decodes to the Go zero value, so an absent `permission` is `""` and an
absent `inherit` is `false`; both behave as such in every query below. -/
structure AccessTo where
  subject : String
  object : String
  permission : String
  inherit : Bool
  deriving DecidableEq, Repr

/-- An `access.to.namespace` edge with its `permission` facet. -/
structure AccessToNamespace where
  subject : String
  object : String
  permission : String
  deriving DecidableEq, Repr

/-- Modelled from the spec: the schema of the store is not in repo.go.  The
graph has one field per predicate that repo.go names, and keeps the edges of
a predicate as a list in insertion order; as in the data model of the
specification (§3, §4.1: grants are append-only and duplicates may coexist)
several grant edges between the same two nodes may be present. -/
structure Graph where
  type : List (String × String)
  accessTo : List AccessTo
  accessToNamespace : List AccessToNamespace
  owns : List (String × String)
  children : List (String × String)
  contains : List (String × String)
  deriving DecidableEq, Repr

/-- The repository handle: the graph behind `Dg`, and which store calls
fail.  `queryFails n` tells whether the `n`-th `QueryWithVars` call of an
operation (counted from 0) returns an error, `mutateFails` whether
`txn.Mutate` does. -/
structure DGraphRepo where
  graph : Graph
  queryFails : Nat → Bool
  mutateFails : Bool

/-- Every store read of the operation succeeds. -/
def readsSucceed (s : DGraphRepo) : Prop := ∀ n, s.queryFails n = false

/-- Modelled from the spec: the declaration of the row type `Object` is not
in repo.go; of its fields the code reads `AccessToPermission` only, the
`permission` facet of the `access.to` edge of the row (the query also asks
for the `inherit` facet). -/
structure Object where
  AccessToPermission : String
  AccessToInherit : Bool
  deriving DecidableEq, Repr

/-! ## `isPermissionSufficient` (repo.go 35-44) -/

/-- The `switch required` of repo.go lines 36-43. -/
def isPermissionSufficient (required actual : String) : Bool :=
  if required = "WRITE" then decide (actual = "WRITE")
  else if required = "READ" then decide (actual = "WRITE") || decide (actual = "READ")
  else false

/-! ## `checkType` (repo.go 54-79) -/

/-- The filter `eq(type, $type)` on node `uid`. -/
def hasType (g : Graph) (uid _type : String) : Bool :=
  decide ((uid, _type) ∈ g.type)

/-- Node `uid` carries a `type` value, as `@cascade` demands of a block that
asks for `type`. -/
def hasSomeType (g : Graph) (uid : String) : Bool :=
  g.type.any (fun p => decide (p.1 = uid))

/-- The function `checkType`, as the `call`-th store read of the operation:
`false` when the query fails, else whether the filtered block is non-empty. -/
def checkType (s : DGraphRepo) (call : Nat) (uid _type : String) : Bool :=
  if s.queryFails call then false else hasType s.graph uid _type

/-! ## `Authorize` (repo.go 337-401) -/

/-- The mutation built in lines 355-391 applied to the graph: one
`access.to.namespace` edge for a namespace, one `access.to` edge for an
object.  The `inherit` facet is the literal `"true"` of line 385. -/
def setNQuad (g : Graph) (_type account node action : String) : Graph :=
  if _type = "namespace" then
    { g with accessToNamespace := g.accessToNamespace ++ [⟨account, node, action⟩] }
  else if _type = "object" then
    { g with accessTo := g.accessTo ++ [⟨account, node, action, true⟩] }
  else g

set_option linter.unusedVariables false in
/-- The method `DGraphRepo.Authorize`: the graph after the call and the
returned error.  As in the source, the parameter `inherit` is not read. -/
def Authorize (s : DGraphRepo) (account node action : String) (inherit : Bool) :
    Graph × Option Error :=
  if !checkType s 0 account "account" then (s.graph, some Error.invalidAccount)
  else
    let _type : Option String :=
      if !checkType s 1 node "namespace" then
        if !checkType s 2 node "object" then none else some "object"
      else some "namespace"
    match _type with
    | none => (s.graph, some Error.resourceDoesNotExist)
    | some t =>
      if s.mutateFails then (s.graph, some Error.failedToMutate)
      else (setNQuad s.graph t account node action, none)

/-! ## The queries of `IsAuthorized` -/

/-- The decoded answer of `qDirect`. -/
structure Permissions where
  Direct : List Object
  DirectViaObject : List Object
  deriving DecidableEq, Repr

/-- Block `direct` of `qDirect` (lines 473-477): the `access.to` edges from
`$user_id` to `$device_id`, one normalized row per edge, kept by `@cascade`
when the target has a `type`. -/
def direct (g : Graph) (device_id user_id : String) : List Object :=
  (g.accessTo.filter (fun e =>
      decide (e.subject = user_id) && decide (e.object = device_id)
        && hasSomeType g device_id)).map
    (fun e => ⟨e.permission, e.inherit⟩)

/-- Block `direct_via_one_object` of `qDirect` (lines 478-485): for every
`access.to` edge from `$user_id` to some node and every `contains` edge from
that node to `$device_id`, one normalized row carrying the facets of the
`access.to` edge.  The block has no condition on `inherit`. -/
def direct_via_one_object (g : Graph) (device_id user_id : String) : List Object :=
  (g.accessTo.filter (fun e => decide (e.subject = user_id))).flatMap (fun e =>
    (g.contains.filter (fun c =>
        decide (c.1 = e.object) && decide (c.2 = device_id)
          && hasSomeType g device_id)).map
      (fun _ => ⟨e.permission, e.inherit⟩))

/-- The query `qDirect`. -/
def qDirect (g : Graph) (device_id user_id : String) : Permissions :=
  ⟨direct g device_id user_id, direct_via_one_object g device_id user_id⟩

/-- The edges `qRecursiveWrite` may walk (lines 516-521): `access.to` with
`inherit` and permission WRITE, `access.to.namespace` with permission WRITE,
`owns`, `children`. -/
def qRecursiveWriteEdges (g : Graph) : List (String × String) :=
  (g.accessTo.filter (fun e => e.inherit && decide (e.permission = "WRITE"))).map
      (fun e => (e.subject, e.object))
    ++ (g.accessToNamespace.filter (fun e => decide (e.permission = "WRITE"))).map
      (fun e => (e.subject, e.object))
    ++ g.owns ++ g.children

/-- The edges `qRecursiveRead` may walk (lines 525-530). -/
def qRecursiveReadEdges (g : Graph) : List (String × String) :=
  (g.accessTo.filter (fun e =>
      e.inherit && (decide (e.permission = "WRITE") || decide (e.permission = "READ")))).map
      (fun e => (e.subject, e.object))
    ++ (g.accessToNamespace.filter (fun e =>
      decide (e.permission = "WRITE") || decide (e.permission = "READ"))).map
      (fun e => (e.subject, e.object))
    ++ g.owns ++ g.children

/-- Whether `t` can be reached from `s` along the listed edges.  A walk over
`e :: es` either avoids `e`, or goes to the source of `e` without it and
leaves its target without it. -/
def reach : List (String × String) → String → String → Bool
  | [], s, t => decide (s = t)
  | e :: es, s, t => reach es s t || (reach es s e.1 && reach es e.2 t)

/-- The block `shortest(from: $user_id, to: $device_id)`: whether the answer
has a `_path_`, that is `len(rez.Path) > 0`.  It is only asked with
`from ≠ to`. -/
def shortest (edges : List (String × String)) (user_id device_id : String) : Bool :=
  reach edges user_id device_id

/-! ## `IsAuthorized` (repo.go 460-562) -/

/-- The test of lines 503-507 and 509-513: the list is non-empty and its
element `[0]` has a sufficient permission. -/
def firstSufficient (action : String) : List Object → Bool
  | [] => false
  | o :: _ => isPermissionSufficient action o.AccessToPermission

/-- Lines 544-561: run the chosen recursive query as store read 1. -/
def runRecursive (s : DGraphRepo) (edges : List (String × String))
    (node account : String) : Bool × Option Error :=
  if s.queryFails 1 then (false, some Error.store)
  else if shortest edges account node then (true, none)
  else (false, none)

/-- The method `DGraphRepo.IsAuthorized`. -/
def IsAuthorized (s : DGraphRepo) (node account action : String) : Bool × Option Error :=
  if node = account then (true, none)
  else if s.queryFails 0 then (false, some Error.store)
  else
    let permissions := qDirect s.graph node account
    if firstSufficient action permissions.Direct then (true, none)
    else if firstSufficient action permissions.DirectViaObject then (true, none)
    else if action = "READ" then runRecursive s (qRecursiveReadEdges s.graph) node account
    else if action = "WRITE" then runRecursive s (qRecursiveWriteEdges s.graph) node account
    else (false, some Error.invalidAction)

/-! ## Vocabulary of the claims -/

/-- The edge relation of an edge list. -/
def edgeRel (es : List (String × String)) (a b : String) : Prop := (a, b) ∈ es

/-- An `owns` or `children` edge: the part of the hierarchy that the two
recursive queries walk.  The predicate `contains` of the one-hop block is
not among them; `hierarchy` below is the relation with it. -/
def ownsOrChildren (g : Graph) (a b : String) : Prop :=
  (a, b) ∈ g.owns ∨ (a, b) ∈ g.children

/-- Node `X` is a permission root of `S` for `action`: `S` holds an object
grant on `X` with `inherit` and a sufficient permission, or a namespace
grant on `X` with a sufficient permission. -/
def permissionRoot (g : Graph) (action S X : String) : Prop :=
  (∃ e ∈ g.accessTo, e.subject = S ∧ e.object = X ∧ e.inherit = true ∧
      isPermissionSufficient action e.permission = true) ∨
  (∃ e ∈ g.accessToNamespace, e.subject = S ∧ e.object = X ∧
      isPermissionSufficient action e.permission = true)

/-- Account `S` holds a grant edge directly on `T` whose permission is
sufficient for `action`. -/
def directGrant (g : Graph) (action S T : String) : Prop :=
  (∃ e ∈ g.accessTo, e.subject = S ∧ e.object = T ∧
      isPermissionSufficient action e.permission = true) ∨
  (∃ e ∈ g.accessToNamespace, e.subject = S ∧ e.object = T ∧
      isPermissionSufficient action e.permission = true)

/-- An ownership or containment edge: `owns`, or a containment edge under
either predicate that the source uses for containment, `children` (the
recursive queries) or `contains` (the one-hop block). -/
def hierarchy (g : Graph) (a b : String) : Prop :=
  (a, b) ∈ g.owns ∨ (a, b) ∈ g.children ∨ (a, b) ∈ g.contains

/-- The grounds for a grant named by the soundness property: the subject is
the target, or holds a sufficient grant directly on it, or the target lies
below a permission root of the subject. -/
def grantedGround (g : Graph) (action S T : String) : Prop :=
  S = T ∨ directGrant g action S T ∨
    ∃ X, permissionRoot g action S X ∧ Relation.TransGen (hierarchy g) X T

/-- The edges the recursive query chosen by the `switch action` of lines
535-542 walks; no query is run for another action. -/
def qRecursiveEdges (g : Graph) (action : String) : List (String × String) :=
  if action = "READ" then qRecursiveReadEdges g
  else if action = "WRITE" then qRecursiveWriteEdges g
  else []

/-- The first `access.to` edge from `S` to `T` in the order of the store. -/
def firstAccessTo (g : Graph) (S T : String) : Option AccessTo :=
  g.accessTo.find? (fun x => decide (x.subject = S) && decide (x.object = T))

/-! ## Concrete stores used by the examples -/

/-- A store on `g` whose calls all succeed. -/
def healthy (g : Graph) : DGraphRepo := ⟨g, fun _ => false, false⟩

/-- Account `S`, objects `O` and `C`, `O` has child `C`, no grant. -/
def gChild : Graph :=
  { type := [("S", "account"), ("O", "object"), ("C", "object")]
    accessTo := []
    accessToNamespace := []
    owns := []
    children := [("O", "C")]
    contains := [] }

/-- The graph `gChild` after a WRITE grant of `S` on `O`, as `Authorize`
leaves it. -/
def gChildGranted : Graph :=
  { gChild with accessTo := [⟨"S", "O", "WRITE", true⟩] }

/-- Account `S` holds a WRITE grant without `inherit` on object `O`, and `O`
has a `contains` edge to object `T`. -/
def gOneHop : Graph :=
  { type := [("S", "account"), ("O", "object"), ("T", "object")]
    accessTo := [⟨"S", "O", "WRITE", false⟩]
    accessToNamespace := []
    owns := []
    children := []
    contains := [("O", "T")] }

/-- Account `S` holds two grants without `inherit` directly on object `T`,
first a READ grant and then a WRITE grant. -/
def gTwoGrants : Graph :=
  { type := [("S", "account"), ("T", "object")]
    accessTo := [⟨"S", "T", "READ", false⟩, ⟨"S", "T", "WRITE", false⟩]
    accessToNamespace := []
    owns := []
    children := []
    contains := [] }

/-- Namespace `N` owns `O1`, `O1` has child `O2` and `O2` has child `O3`;
account `S` holds a READ grant on `N`. -/
def gTree : Graph :=
  { type := [("S", "account"), ("N", "namespace"), ("O1", "object"), ("O2", "object"),
      ("O3", "object")]
    accessTo := []
    accessToNamespace := [⟨"S", "N", "READ"⟩]
    owns := [("N", "O1")]
    children := [("O1", "O2"), ("O2", "O3")]
    contains := [] }

/-- Account `S` holds a WRITE grant with `inherit` on object `O1`; `O1` has
a `contains` edge to `O2` and `O2` one to `O3`. -/
def gContains : Graph :=
  { type := [("S", "account"), ("O1", "object"), ("O2", "object"), ("O3", "object")]
    accessTo := [⟨"S", "O1", "WRITE", true⟩]
    accessToNamespace := []
    owns := []
    children := []
    contains := [("O1", "O2"), ("O2", "O3")] }

/-- The graph `gChild` with a WRITE grant of `S` on `O` that has
`inherit = false`. -/
def gNoInherit : Graph :=
  { gChild with accessTo := [⟨"S", "O", "WRITE", false⟩] }

/-- Namespace `N` owns object `O`; there is no grant at all. -/
def gOwns : Graph :=
  { type := [("N", "namespace"), ("O", "object")]
    accessTo := []
    accessToNamespace := []
    owns := [("N", "O")]
    children := []
    contains := [] }

/-! ## Reachability lemmas -/

theorem edgeRel_mono {es fs : List (String × String)} (h : ∀ p ∈ es, p ∈ fs)
    {a b : String} (hab : Relation.ReflTransGen (edgeRel es) a b) :
    Relation.ReflTransGen (edgeRel fs) a b :=
  Relation.ReflTransGen.mono (fun _ _ hxy => h _ hxy) hab

theorem walk_split (e : String × String) (es : List (String × String)) {s t : String}
    (h : Relation.ReflTransGen (edgeRel (e :: es)) s t) :
    Relation.ReflTransGen (edgeRel es) s t ∨
      (Relation.ReflTransGen (edgeRel es) s e.1 ∧ Relation.ReflTransGen (edgeRel es) e.2 t) := by
  induction h with
  | refl => exact Or.inl Relation.ReflTransGen.refl
  | @tail m u _ hmu ih =>
    have hmem : (m, u) = e ∨ (m, u) ∈ es := by
      simpa [edgeRel] using hmu
    rcases hmem with heq | hin
    · subst heq
      rcases ih with h1 | ⟨h1, _⟩
      · exact Or.inr ⟨h1, Relation.ReflTransGen.refl⟩
      · exact Or.inr ⟨h1, Relation.ReflTransGen.refl⟩
    · rcases ih with h1 | ⟨h1, h2⟩
      · exact Or.inl (h1.tail hin)
      · exact Or.inr ⟨h1, h2.tail hin⟩

/-- The function `reach` decides the existence of a walk along the listed
edges. -/
theorem reach_iff (es : List (String × String)) (s t : String) :
    reach es s t = true ↔ Relation.ReflTransGen (edgeRel es) s t := by
  induction es generalizing s t with
  | nil =>
    simp only [reach, decide_eq_true_eq]
    constructor
    · rintro rfl; exact Relation.ReflTransGen.refl
    · intro h
      induction h with
      | refl => rfl
      | tail _ hmu _ => simp [edgeRel] at hmu
  | cons e es ih =>
    simp only [reach, Bool.or_eq_true, Bool.and_eq_true, ih]
    constructor
    · rintro (h | ⟨h1, h2⟩)
      · exact edgeRel_mono (fun p hp => List.mem_cons_of_mem _ hp) h
      · have hsub : ∀ p ∈ es, p ∈ e :: es := fun p hp => List.mem_cons_of_mem _ hp
        have g1 : Relation.ReflTransGen (edgeRel (e :: es)) s e.1 := edgeRel_mono hsub h1
        have g2 : Relation.ReflTransGen (edgeRel (e :: es)) e.2 t := edgeRel_mono hsub h2
        have he : edgeRel (e :: es) e.1 e.2 := by simp [edgeRel]
        exact (g1.tail he).trans g2
    · exact walk_split e es

/-- No chain ends in a node that no edge enters. -/
theorem no_chain_to_unknown {es : List (String × String)} {S T : String}
    (h : ∀ p ∈ es, p.2 ≠ T) : ¬ Relation.TransGen (edgeRel es) S T := by
  intro hc
  obtain ⟨b, _, hb⟩ := Relation.TransGen.tail'_iff.mp hc
  exact h (b, T) hb rfl

/-- No chain starts in a node that no edge leaves. -/
theorem no_chain_from_unknown {es : List (String × String)} {S T : String}
    (h : ∀ p ∈ es, p.1 ≠ S) : ¬ Relation.TransGen (edgeRel es) S T := by
  intro hc
  obtain ⟨b, hb, _⟩ := Relation.TransGen.head'_iff.mp hc
  exact h (S, b) hb rfl

/-! ## Permissions and edge sets -/

theorem sufficient_read_iff (p : String) :
    isPermissionSufficient "READ" p = true ↔ p = "WRITE" ∨ p = "READ" := by
  simp [isPermissionSufficient]

theorem sufficient_write_iff (p : String) :
    isPermissionSufficient "WRITE" p = true ↔ p = "WRITE" := by
  simp [isPermissionSufficient]

theorem isPermissionSufficient_write_read {p : String}
    (h : isPermissionSufficient "WRITE" p = true) : isPermissionSufficient "READ" p = true := by
  simp [isPermissionSufficient] at h ⊢
  exact Or.inl h

theorem firstSufficient_mem {action : String} {rows : List Object}
    (h : firstSufficient action rows = true) :
    ∃ o ∈ rows, isPermissionSufficient action o.AccessToPermission = true := by
  cases rows with
  | nil => simp [firstSufficient] at h
  | cons o rest => exact ⟨o, List.mem_cons_self _ _, h⟩

theorem not_sufficient_of_invalid {action : String} (hr : action ≠ "READ")
    (hw : action ≠ "WRITE") (rows : List Object) : firstSufficient action rows = false := by
  cases rows with
  | nil => rfl
  | cons o rest => simp [firstSufficient, isPermissionSufficient, hr, hw]

theorem write_edges_sub_read (g : Graph) :
    ∀ p ∈ qRecursiveWriteEdges g, p ∈ qRecursiveReadEdges g := by
  intro p hp
  simp only [qRecursiveWriteEdges, qRecursiveReadEdges, List.mem_append, List.mem_map,
    List.mem_filter, Bool.and_eq_true, Bool.or_eq_true, decide_eq_true_eq] at hp ⊢
  rcases hp with ((⟨e, ⟨he, hi, hw⟩, rfl⟩ | ⟨e, ⟨he, hw⟩, rfl⟩) | h) | h
  · exact Or.inl (Or.inl (Or.inl ⟨e, ⟨he, hi, Or.inl hw⟩, rfl⟩))
  · exact Or.inl (Or.inl (Or.inr ⟨e, ⟨he, Or.inl hw⟩, rfl⟩))
  · exact Or.inl (Or.inr h)
  · exact Or.inr h

theorem root_edge_read {g : Graph} {S X : String} (h : permissionRoot g "READ" S X) :
    edgeRel (qRecursiveReadEdges g) S X := by
  simp only [edgeRel, qRecursiveReadEdges, List.mem_append, List.mem_map, List.mem_filter,
    Bool.and_eq_true, Bool.or_eq_true, decide_eq_true_eq]
  rcases h with ⟨e, he, hs, ho, hi, hp⟩ | ⟨e, he, hs, ho, hp⟩
  · exact Or.inl (Or.inl (Or.inl ⟨e, ⟨he, hi, (sufficient_read_iff _).mp hp⟩, by rw [hs, ho]⟩))
  · exact Or.inl (Or.inl (Or.inr ⟨e, ⟨he, (sufficient_read_iff _).mp hp⟩, by rw [hs, ho]⟩))

theorem root_edge_write {g : Graph} {S X : String} (h : permissionRoot g "WRITE" S X) :
    edgeRel (qRecursiveWriteEdges g) S X := by
  simp only [edgeRel, qRecursiveWriteEdges, List.mem_append, List.mem_map, List.mem_filter,
    Bool.and_eq_true, decide_eq_true_eq]
  rcases h with ⟨e, he, hs, ho, hi, hp⟩ | ⟨e, he, hs, ho, hp⟩
  · exact Or.inl (Or.inl (Or.inl ⟨e, ⟨he, hi, (sufficient_write_iff _).mp hp⟩, by rw [hs, ho]⟩))
  · exact Or.inl (Or.inl (Or.inr ⟨e, ⟨he, (sufficient_write_iff _).mp hp⟩, by rw [hs, ho]⟩))

theorem ownsOrChildren_read {g : Graph} {a b : String} (h : ownsOrChildren g a b) :
    edgeRel (qRecursiveReadEdges g) a b := by
  simp only [edgeRel, qRecursiveReadEdges, List.mem_append]
  rcases h with h | h
  · exact Or.inl (Or.inr h)
  · exact Or.inr h

theorem ownsOrChildren_write {g : Graph} {a b : String} (h : ownsOrChildren g a b) :
    edgeRel (qRecursiveWriteEdges g) a b := by
  simp only [edgeRel, qRecursiveWriteEdges, List.mem_append]
  rcases h with h | h
  · exact Or.inl (Or.inr h)
  · exact Or.inr h

theorem granted_edge_write (g : Graph) (S R : String) :
    edgeRel (qRecursiveWriteEdges (setNQuad g "namespace" S R "WRITE")) S R ∧
      edgeRel (qRecursiveWriteEdges (setNQuad g "object" S R "WRITE")) S R := by
  constructor <;> simp [edgeRel, qRecursiveWriteEdges, setNQuad]

theorem direct_not_sufficient {g : Graph} {action S T : String}
    (h : ∀ e ∈ g.accessTo, e.subject = S → e.object = T →
      isPermissionSufficient action e.permission = false) :
    firstSufficient action (direct g T S) = false := by
  rcases Bool.eq_false_or_eq_true (firstSufficient action (direct g T S)) with hf | hf
  · obtain ⟨o, ho, hp⟩ := firstSufficient_mem hf
    simp only [direct, List.mem_map, List.mem_filter, Bool.and_eq_true,
      decide_eq_true_eq] at ho
    obtain ⟨e, ⟨he, ⟨hs, ht⟩, _⟩, rfl⟩ := ho
    rw [h e he hs ht] at hp
    cases hp
  · exact hf

theorem one_hop_not_sufficient {g : Graph} {action S T : String}
    (h : ∀ e ∈ g.accessTo, e.subject = S → (e.object, T) ∈ g.contains →
      isPermissionSufficient action e.permission = false) :
    firstSufficient action (direct_via_one_object g T S) = false := by
  rcases Bool.eq_false_or_eq_true
    (firstSufficient action (direct_via_one_object g T S)) with hf | hf
  · obtain ⟨o, ho, hp⟩ := firstSufficient_mem hf
    simp only [direct_via_one_object, List.mem_flatMap, List.mem_map, List.mem_filter,
      Bool.and_eq_true, decide_eq_true_eq] at ho
    obtain ⟨e, ⟨he, hs⟩, c, ⟨hc, ⟨h1, h2⟩, _⟩, rfl⟩ := ho
    have hce : c = (e.object, T) := Prod.ext h1 h2
    rw [h e he hs (hce ▸ hc)] at hp
    cases hp
  · exact hf

theorem filter_of_find {α : Type} (p : α → Bool) (l : List α) (e : α)
    (h : l.find? p = some e) : ∃ rest, l.filter p = e :: rest := by
  induction l with
  | nil => simp at h
  | cons a l ih =>
    rcases Bool.eq_false_or_eq_true (p a) with hp | hp
    · simp only [List.find?_cons, hp, Option.some.injEq] at h
      subst h
      exact ⟨l.filter p, by simp [List.filter_cons, hp]⟩
    · simp only [List.find?_cons, hp] at h
      obtain ⟨rest, hr⟩ := ih h
      exact ⟨rest, by simp [List.filter_cons, hp, hr]⟩

theorem direct_first_row {g : Graph} {S T : String} {e : AccessTo}
    (ht : hasSomeType g T = true) (hf : firstAccessTo g S T = some e) :
    ∃ rest, direct g T S = ⟨e.permission, e.inherit⟩ :: rest := by
  obtain ⟨rest, hr⟩ := filter_of_find _ _ _ hf
  refine ⟨rest.map (fun e => ⟨e.permission, e.inherit⟩), ?_⟩
  simp only [direct, ht, Bool.and_true]
  rw [hr]
  rfl

theorem grant_edge_walked {g : Graph} {action : String} {e : AccessTo}
    (ha : action = "READ" ∨ action = "WRITE") (he : e ∈ g.accessTo)
    (hi : e.inherit = true) (hp : isPermissionSufficient action e.permission = true) :
    edgeRel (qRecursiveEdges g action) e.subject e.object := by
  rcases ha with rfl | rfl
  · exact root_edge_read (Or.inl ⟨e, he, rfl, rfl, hi, hp⟩)
  · exact root_edge_write (Or.inl ⟨e, he, rfl, rfl, hi, hp⟩)

/-! ## The two operations as values -/

theorem IsAuthorized_read (s : DGraphRepo) (hs : readsSucceed s) {node account : String}
    (hne : node ≠ account) :
    IsAuthorized s node account "READ" =
      (firstSufficient "READ" (direct s.graph node account)
        || firstSufficient "READ" (direct_via_one_object s.graph node account)
        || reach (qRecursiveReadEdges s.graph) account node, none) := by
  rcases Bool.eq_false_or_eq_true (firstSufficient "READ" (direct s.graph node account))
    with h1 | h1 <;>
  rcases Bool.eq_false_or_eq_true
    (firstSufficient "READ" (direct_via_one_object s.graph node account)) with h2 | h2 <;>
  rcases Bool.eq_false_or_eq_true (reach (qRecursiveReadEdges s.graph) account node) with h3 | h3 <;>
  simp [IsAuthorized, hne, hs 0, qDirect, runRecursive, hs 1, shortest, h1, h2, h3]

theorem IsAuthorized_write (s : DGraphRepo) (hs : readsSucceed s) {node account : String}
    (hne : node ≠ account) :
    IsAuthorized s node account "WRITE" =
      (firstSufficient "WRITE" (direct s.graph node account)
        || firstSufficient "WRITE" (direct_via_one_object s.graph node account)
        || reach (qRecursiveWriteEdges s.graph) account node, none) := by
  rcases Bool.eq_false_or_eq_true (firstSufficient "WRITE" (direct s.graph node account))
    with h1 | h1 <;>
  rcases Bool.eq_false_or_eq_true
    (firstSufficient "WRITE" (direct_via_one_object s.graph node account)) with h2 | h2 <;>
  rcases Bool.eq_false_or_eq_true (reach (qRecursiveWriteEdges s.graph) account node) with h3 | h3 <;>
  simp [IsAuthorized, hne, hs 0, qDirect, runRecursive, hs 1, shortest, h1, h2, h3]

theorem IsAuthorized_of_walk_read (s : DGraphRepo) (hs : readsSucceed s) {node account : String}
    (h : Relation.ReflTransGen (edgeRel (qRecursiveReadEdges s.graph)) account node) :
    IsAuthorized s node account "READ" = (true, none) := by
  by_cases hne : node = account
  · simp [IsAuthorized, hne]
  · rw [IsAuthorized_read s hs hne, (reach_iff _ _ _).mpr h]
    simp

theorem IsAuthorized_of_walk_write (s : DGraphRepo) (hs : readsSucceed s) {node account : String}
    (h : Relation.ReflTransGen (edgeRel (qRecursiveWriteEdges s.graph)) account node) :
    IsAuthorized s node account "WRITE" = (true, none) := by
  by_cases hne : node = account
  · simp [IsAuthorized, hne]
  · rw [IsAuthorized_write s hs hne, (reach_iff _ _ _).mpr h]
    simp

theorem read_of_write (s : DGraphRepo) (node account : String)
    (hs : readsSucceed s) (h : IsAuthorized s node account "WRITE" = (true, none)) :
    IsAuthorized s node account "READ" = (true, none) := by
  by_cases hne : node = account
  · simp [IsAuthorized, hne]
  · rw [IsAuthorized_write s hs hne] at h
    rw [IsAuthorized_read s hs hne]
    simp only [Prod.mk.injEq, and_true, Bool.or_eq_true] at h ⊢
    rcases h with (h | h) | h
    · refine Or.inl (Or.inl ?_)
      cases hd : direct s.graph node account with
      | nil => simp [hd, firstSufficient] at h
      | cons o rest =>
        rw [hd] at h
        exact isPermissionSufficient_write_read h
    · refine Or.inl (Or.inr ?_)
      cases hd : direct_via_one_object s.graph node account with
      | nil => simp [hd, firstSufficient] at h
      | cons o rest =>
        rw [hd] at h
        exact isPermissionSufficient_write_read h
    · refine Or.inr ?_
      rw [reach_iff] at h ⊢
      exact edgeRel_mono (write_edges_sub_read s.graph) h

theorem Authorize_ok {s : DGraphRepo} {account node action : String} {inherit : Bool}
    {g : Graph} (h : Authorize s account node action inherit = (g, none)) :
    g = setNQuad s.graph "namespace" account node action ∨
      g = setNQuad s.graph "object" account node action := by
  unfold Authorize at h
  rcases Bool.eq_false_or_eq_true (checkType s 0 account "account") with h0 | h0 <;>
  rcases Bool.eq_false_or_eq_true (checkType s 1 node "namespace") with h1 | h1 <;>
  rcases Bool.eq_false_or_eq_true (checkType s 2 node "object") with h2 | h2 <;>
  rcases Bool.eq_false_or_eq_true s.mutateFails with hm | hm <;>
  simp [h0, h1, h2, hm] at h <;> simp [← h]

/-! ## The claims -/

/-- C1. Monotonicity of the decision: with the store reads succeeding, a
WRITE request that is granted for a node and an account is granted as a READ
request on the same graph. -/
theorem write_granted_implies_read_granted (s : DGraphRepo) (node account : String)
    (hs : readsSucceed s) (h : IsAuthorized s node account "WRITE" = (true, none)) :
    IsAuthorized s node account "READ" = (true, none) :=
  read_of_write s node account hs h

/-- Witness of C1: after the WRITE grant on `O`, the WRITE decision on the
child `C` is positive, hence the READ decision is. -/
theorem write_granted_implies_read_granted_witness :
    IsAuthorized (healthy gChildGranted) "C" "S" "READ" = (true, none) :=
  write_granted_implies_read_granted (healthy gChildGranted) "C" "S" (fun _ => rfl)
    (by decide)

/-- C2. The one-hop shortcut does not look at `inherit`: in `gOneHop` the
only grant of `S` is a WRITE grant on `O` with `inherit = false`, so none of
the grounds of the soundness property holds for `S` and `T`, and yet the
WRITE request of `S` on `T` is granted: the first row of
`direct_via_one_object` is sufficient, while the recursive query, which
filters on `inherit`, finds no path. -/
theorem one_hop_shortcut_ignores_inherit :
    IsAuthorized (healthy gOneHop) "T" "S" "WRITE" = (true, none) ∧
      firstSufficient "WRITE" (direct_via_one_object gOneHop "T" "S") = true ∧
      shortest (qRecursiveWriteEdges gOneHop) "S" "T" = false ∧
      ¬ grantedGround gOneHop "WRITE" "S" "T" := by
  refine ⟨by decide, by decide, by decide, ?_⟩
  rintro (h | h | ⟨X, hroot, _⟩)
  · exact absurd h (by decide)
  · simp [directGrant, gOneHop] at h
  · simp [permissionRoot, gOneHop] at hroot

/-- C3, counterexample. A chain of `contains` edges is not followed: in
`gContains` the account `S` holds a WRITE grant with `inherit` on `O1`, and
`O3` lies two containment edges below `O1`, yet the WRITE request of `S` on
`O3` is denied. -/
theorem contains_chain_not_followed :
    permissionRoot gContains "WRITE" "S" "O1" ∧
      Relation.TransGen (hierarchy gContains) "O1" "O3" ∧
      IsAuthorized (healthy gContains) "O3" "S" "WRITE" = (false, none) := by
  refine ⟨Or.inl ⟨⟨"S", "O1", "WRITE", true⟩, by decide, rfl, rfl, rfl, by decide⟩, ?_,
    by decide⟩
  exact (Relation.TransGen.single
      (show hierarchy gContains "O1" "O2" from Or.inr (Or.inr (by decide)))).tail
    (show hierarchy gContains "O2" "O3" from Or.inr (Or.inr (by decide)))

/-- C3, amended. Completeness of inherited access along `owns` and
`children`: with the store reads succeeding, if `S` holds an object grant
with `inherit` on `X`, or a namespace grant on `X`, whose permission is
sufficient for the action (READ or WRITE), and `T` is reached from `X` by
one or more `owns`/`children` edges, then the request of `S` on `T` is
granted without error.  Acyclicity is not needed. -/
theorem inherited_access_granted (s : DGraphRepo) (S T X action : String)
    (hs : readsSucceed s) (ha : action = "READ" ∨ action = "WRITE")
    (hroot : permissionRoot s.graph action S X)
    (hchain : Relation.TransGen (ownsOrChildren s.graph) X T) :
    IsAuthorized s T S action = (true, none) := by
  rcases ha with rfl | rfl
  · apply IsAuthorized_of_walk_read s hs
    exact Relation.ReflTransGen.head (root_edge_read hroot)
      (Relation.ReflTransGen.mono (fun _ _ h => ownsOrChildren_read h)
        hchain.to_reflTransGen)
  · apply IsAuthorized_of_walk_write s hs
    exact Relation.ReflTransGen.head (root_edge_write hroot)
      (Relation.ReflTransGen.mono (fun _ _ h => ownsOrChildren_write h)
        hchain.to_reflTransGen)

/-- Witness of the amended C3: in `gTree` the READ grant of `S` on namespace
`N` reaches `O3` three edges below. -/
theorem inherited_access_granted_witness :
    IsAuthorized (healthy gTree) "O3" "S" "READ" = (true, none) :=
  inherited_access_granted (healthy gTree) "S" "O3" "N" "READ" (fun _ => rfl) (Or.inl rfl)
    (Or.inr ⟨⟨"S", "N", "READ"⟩, by decide, rfl, rfl, by decide⟩)
    (((Relation.TransGen.single
          (show ownsOrChildren gTree "N" "O1" from Or.inl (by decide))).tail
        (show ownsOrChildren gTree "O1" "O2" from Or.inr (by decide))).tail
      (show ownsOrChildren gTree "O2" "O3" from Or.inr (by decide)))

/-- C4. A grant made with `inherit = false` reaches the child: on `gChild`,
where `S` holds no grant and `O` has the child `C`,
`Authorize(S, O, "WRITE", false)` succeeds and writes the facet
`inherit = true`, after which the WRITE request of `S` on `C` is granted. -/
theorem authorize_drops_inherit_false :
    Authorize (healthy gChild) "S" "O" "WRITE" false = (gChildGranted, none) ∧
      IsAuthorized (healthy gChildGranted) "C" "S" "WRITE" = (true, none) := by
  decide

/-- C5. Direct grant round trip: whenever `Authorize(S, R, "WRITE", false)`
returns nil, which needs `S` to be of type account and `R` of type namespace
or object, a store holding the resulting graph whose reads succeed answers
both the WRITE and the READ request of `S` on `R` with `(true, nil)`. -/
theorem direct_grant_round_trip (s after : DGraphRepo) (S R : String)
    (hok : Authorize s S R "WRITE" false = (after.graph, none))
    (hs : readsSucceed after) :
    IsAuthorized after R S "WRITE" = (true, none) ∧
      IsAuthorized after R S "READ" = (true, none) := by
  have hedge : edgeRel (qRecursiveWriteEdges after.graph) S R := by
    rcases Authorize_ok hok with h | h <;> rw [h]
    · exact (granted_edge_write s.graph S R).1
    · exact (granted_edge_write s.graph S R).2
  have hw : IsAuthorized after R S "WRITE" = (true, none) :=
    IsAuthorized_of_walk_write after hs (Relation.ReflTransGen.single hedge)
  exact ⟨hw, read_of_write after R S hs hw⟩

/-- Witness of C5: account `S` is granted WRITE on object `O` of `gChild`. -/
theorem direct_grant_round_trip_witness :
    hasType gChild "S" "account" = true ∧ hasType gChild "O" "object" = true ∧
      IsAuthorized (healthy gChildGranted) "O" "S" "WRITE" = (true, none) ∧
      IsAuthorized (healthy gChildGranted) "O" "S" "READ" = (true, none) :=
  ⟨by decide, by decide,
    direct_grant_round_trip (healthy gChild) (healthy gChildGranted) "S" "O" (by decide)
      (fun _ => rfl)⟩

/-- C6, counterexample. With the node equal to the account the action
`"DELETE"` yields the decision `true` and a nil error. -/
theorem self_access_precedes_action_check :
    "DELETE" ≠ "READ" ∧ "DELETE" ≠ "WRITE" ∧
      IsAuthorized (healthy gChild) "S" "S" "DELETE" = (true, none) := by
  decide

/-- C6, amended. For a node different from the account and an action other
than `"READ"` and `"WRITE"`, `IsAuthorized` returns the decision `false`
with a non-nil error, whatever the graph and whether or not the store read
succeeds; when the read succeeds the error is the invalid-action error. -/
theorem invalid_action_is_error (s : DGraphRepo) (node account action : String)
    (hne : node ≠ account) (hr : action ≠ "READ") (hw : action ≠ "WRITE") :
    (IsAuthorized s node account action).1 = false ∧
      (IsAuthorized s node account action).2 ≠ none ∧
      (s.queryFails 0 = false →
        IsAuthorized s node account action = (false, some Error.invalidAction)) := by
  rcases Bool.eq_false_or_eq_true (s.queryFails 0) with h0 | h0 <;>
    simp [IsAuthorized, hne, hr, hw, h0, not_sufficient_of_invalid hr hw]

/-- Witness of the amended C6: the action `"DELETE"` of `S` on `O`. -/
theorem invalid_action_is_error_witness :
    IsAuthorized (healthy gChild) "O" "S" "DELETE" = (false, some Error.invalidAction) :=
  (invalid_action_is_error (healthy gChild) "O" "S" "DELETE" (by decide) (by decide)
    (by decide)).2.2 rfl

/-- C7. Grant creation validates before mutating: `Authorize` returns the
invalid-account error when the subject is not of type account, and, when the
type of the subject is read and is account, the resource-does-not-exist
error when the target is of type neither namespace nor object; both times
the graph is left as it was. -/
theorem authorize_validates_first (s : DGraphRepo) (account node action : String)
    (inherit : Bool) :
    (hasType s.graph account "account" = false →
      Authorize s account node action inherit = (s.graph, some Error.invalidAccount)) ∧
    (s.queryFails 0 = false → hasType s.graph account "account" = true →
      hasType s.graph node "namespace" = false → hasType s.graph node "object" = false →
      Authorize s account node action inherit
        = (s.graph, some Error.resourceDoesNotExist)) := by
  constructor
  · intro h
    simp [Authorize, checkType, h]
  · intro h0 ha hn ho
    simp [Authorize, checkType, h0, ha, hn, ho]

/-- Witness of C7: in `gChild` the object `O` is not an account, and `X` is
neither a namespace nor an object. -/
theorem authorize_validates_first_witness :
    Authorize (healthy gChild) "O" "C" "WRITE" true = (gChild, some Error.invalidAccount) ∧
      Authorize (healthy gChild) "S" "X" "WRITE" true
        = (gChild, some Error.resourceDoesNotExist) :=
  ⟨(authorize_validates_first (healthy gChild) "O" "C" "WRITE" true).1 (by decide),
    (authorize_validates_first (healthy gChild) "S" "X" "WRITE" true).2 rfl (by decide)
      (by decide) (by decide)⟩

/-- C8, counterexample. `Authorize` does not reject the action `"DELETE"`:
on `gChild` it returns nil and leaves an `access.to` edge whose permission
facet is `"DELETE"`. -/
theorem authorize_accepts_delete :
    "DELETE" ≠ "READ" ∧ "DELETE" ≠ "WRITE" ∧
      Authorize (healthy gChild) "S" "O" "DELETE" false
        = ({ gChild with accessTo := [⟨"S", "O", "DELETE", true⟩] }, none) := by
  decide

/-- C8, amended. `Authorize` does not validate the action: for a subject of
type account, a target of type namespace or object and a store whose calls
succeed, it returns nil for every action string and appends one grant edge
that carries the string as its permission facet, an `access.to.namespace`
edge for a namespace and else an `access.to` edge. -/
theorem authorize_writes_any_action (s : DGraphRepo) (account node action : String)
    (inherit : Bool) (hs : readsSucceed s) (hm : s.mutateFails = false)
    (ha : hasType s.graph account "account" = true)
    (hn : hasType s.graph node "namespace" = true ∨ hasType s.graph node "object" = true) :
    Authorize s account node action inherit =
      (if hasType s.graph node "namespace" = true then
          { s.graph with
            accessToNamespace := s.graph.accessToNamespace ++ [⟨account, node, action⟩] }
        else
          { s.graph with accessTo := s.graph.accessTo ++ [⟨account, node, action, true⟩] },
        none) := by
  rcases Bool.eq_false_or_eq_true (hasType s.graph node "namespace") with h1 | h1
  · simp [Authorize, checkType, hs 0, hs 1, hs 2, hm, ha, h1, setNQuad]
  · have h2 : hasType s.graph node "object" = true := by
      rcases hn with h | h
      · rw [h1] at h; cases h
      · exact h
    simp [Authorize, checkType, hs 0, hs 1, hs 2, hm, ha, h1, h2, setNQuad]

/-- Witness of the amended C8 on `gChild` with the action `"DELETE"`. -/
theorem authorize_writes_any_action_witness :
    (Authorize (healthy gChild) "S" "O" "DELETE" false).2 = none ∧
      (Authorize (healthy gChild) "S" "O" "DELETE" false).1.accessTo
        = [⟨"S", "O", "DELETE", true⟩] := by
  rw [authorize_writes_any_action (healthy gChild) "S" "O" "DELETE" false (fun _ => rfl) rfl
    (by decide) (Or.inr (by decide))]
  decide

/-- C9, counterexample. Only the first row of `direct` is inspected: in
`gTwoGrants` the account `S` holds a WRITE grant directly on `T`, listed
after a READ grant and without `inherit`, and the WRITE request of `S` on
`T` is denied. -/
theorem second_direct_grant_not_seen :
    directGrant gTwoGrants "WRITE" "S" "T" ∧
      IsAuthorized (healthy gTwoGrants) "T" "S" "WRITE" = (false, none) := by
  refine ⟨Or.inl ⟨⟨"S", "T", "WRITE", false⟩, by decide, rfl, rfl, by decide⟩, by decide⟩

/-- C9, amended. With the store reads succeeding and an action READ or
WRITE, an `access.to` edge `e` from `S` directly to `T` with a sufficient
permission yields `(true, nil)` when `e` has `inherit`, or when `T` carries a
type and `e` is the first `access.to` edge from `S` to `T` in the order of
the store, as it is when the store keeps one edge per pair; in the second
case the `inherit` flag of `e` does not matter, and in both cases any other
edges may coexist. -/
theorem direct_grant_granted (s : DGraphRepo) (S T action : String) (e : AccessTo)
    (hs : readsSucceed s) (ha : action = "READ" ∨ action = "WRITE")
    (he : e ∈ s.graph.accessTo) (hS : e.subject = S) (hT : e.object = T)
    (hp : isPermissionSufficient action e.permission = true)
    (h : e.inherit = true ∨
      (hasSomeType s.graph T = true ∧ firstAccessTo s.graph S T = some e)) :
    IsAuthorized s T S action = (true, none) := by
  rcases h with hi | ⟨ht, hf⟩
  · have hw := grant_edge_walked ha he hi hp
    rw [hS, hT] at hw
    rcases ha with rfl | rfl
    · exact IsAuthorized_of_walk_read s hs (Relation.ReflTransGen.single hw)
    · exact IsAuthorized_of_walk_write s hs (Relation.ReflTransGen.single hw)
  · by_cases hne : T = S
    · simp [IsAuthorized, hne]
    · obtain ⟨rest, hd⟩ := direct_first_row ht hf
      have h1 : firstSufficient action (direct s.graph T S) = true := by
        rw [hd]
        exact hp
      rcases ha with rfl | rfl
      · rw [IsAuthorized_read s hs hne, h1]
        rfl
      · rw [IsAuthorized_write s hs hne, h1]
        rfl

/-- Witness of the amended C9: in `gTwoGrants` the first grant of `S` on `T`
is the READ grant without `inherit`, next to which a WRITE grant coexists,
and the READ request is granted. -/
theorem direct_grant_granted_witness :
    IsAuthorized (healthy gTwoGrants) "T" "S" "READ" = (true, none) :=
  direct_grant_granted (healthy gTwoGrants) "S" "T" "READ" ⟨"S", "T", "READ", false⟩
    (fun _ => rfl) (Or.inl rfl) (by decide) rfl rfl (by decide)
    (Or.inr ⟨by decide, by decide⟩)

/-- C10, counterexample. The subject need not hold a grant: in `gOwns`, which
has no grant edge, the READ request made with the namespace `N` as subject
on the object `O` it owns is granted, because the recursive query may walk
an `owns` edge as its first step. -/
theorem owner_as_subject_is_granted :
    gOwns.accessTo = [] ∧ gOwns.accessToNamespace = [] ∧ "N" ≠ "O" ∧
      IsAuthorized (healthy gOwns) "O" "N" "READ" = (true, none) := by
  decide

/-- C10, amended. Denial is a value, not an error: with the store reads
succeeding, an action READ or WRITE and a subject `S` different from the
target `T`, `IsAuthorized` returns `(false, nil)` when `S` holds no object
grant with a sufficient permission directly on `T`, none on a node with a
`contains` edge to `T`, and `T` is not reached from `S` by a path of the
edges that the recursive query of the action walks (object grants with
`inherit` and a sufficient permission, namespace grants with a sufficient
permission, `owns`, `children`).  An identifier without edges meets the
three conditions. -/
theorem denied_without_error (s : DGraphRepo) (S T action : String)
    (hs : readsSucceed s) (ha : action = "READ" ∨ action = "WRITE") (hne : S ≠ T)
    (hdirect : ∀ e ∈ s.graph.accessTo, e.subject = S → e.object = T →
      isPermissionSufficient action e.permission = false)
    (hhop : ∀ e ∈ s.graph.accessTo, e.subject = S → (e.object, T) ∈ s.graph.contains →
      isPermissionSufficient action e.permission = false)
    (hpath : ¬ Relation.TransGen (edgeRel (qRecursiveEdges s.graph action)) S T) :
    IsAuthorized s T S action = (false, none) := by
  have h1 := direct_not_sufficient hdirect
  have h2 := one_hop_not_sufficient hhop
  have hTS : T ≠ S := fun h => hne h.symm
  have h3 : reach (qRecursiveEdges s.graph action) S T = false := by
    rcases Bool.eq_false_or_eq_true (reach (qRecursiveEdges s.graph action) S T) with h | h
    · rcases Relation.reflTransGen_iff_eq_or_transGen.mp ((reach_iff _ _ _).mp h) with heq | ht
      · exact absurd heq.symm hne
      · exact absurd ht hpath
    · exact h
  rcases ha with rfl | rfl
  · rw [IsAuthorized_read s hs hTS, h1, h2]
    simp only [qRecursiveEdges, if_true] at h3
    rw [h3]
    rfl
  · have hw : qRecursiveEdges s.graph "WRITE" = qRecursiveWriteEdges s.graph := by
      simp [qRecursiveEdges]
    rw [hw] at h3
    rw [IsAuthorized_write s hs hTS, h1, h2, h3]
    rfl

/-- Witness of the amended C10: in `gNoInherit` the account `S` holds a WRITE
grant without `inherit` on `O`, whose child is `C`; the WRITE request of `S`
on `C` is denied without error. -/
theorem denied_without_error_witness :
    IsAuthorized (healthy gNoInherit) "C" "S" "WRITE" = (false, none) :=
  denied_without_error (healthy gNoInherit) "S" "C" "WRITE" (fun _ => rfl) (Or.inr rfl)
    (by decide) (by decide) (by decide)
    (fun h => absurd ((reach_iff _ _ _).mpr h.to_reflTransGen) (by decide))

end Dgraph
